import Mathlib

/-!
Verification development for the FlightLab RC-aircraft tools.

The four tools are embedded shallowly: Python floats become rationals
(`ℚ`), the decimal literals of the source become the exact rationals
they denote (0.8 ↦ 4/5, 1e-9 ↦ 1/10^9, 0.1 ↦ 1/10, 1.2 ↦ 6/5),
fallible UI handlers become `Except`-valued functions, and the battery
simulator's mutable widget state becomes an explicit `SimState` record
threaded through `onStart` / `onPause` / `onReset` / `onTick`.
The wall-clock reading `time.time()` and the random current draw are
passed in as explicit arguments of `onTick`.
-/

namespace FlightLab

/-! ## flight_time_ui.py : domain logic -/

/-- Embeds `calculate_flight_time` from src/tools/flight_time_ui.py:
capacity is converted to Ah, scaled by 0.8 under the 80% rule, and the
divisor is clamped below by 1e-9. -/
def calculate_flight_time (capacity_mAh avg_current_A : ℚ) (use_80_percent : Bool) : ℚ :=
  let capacity_Ah := capacity_mAh / 1000
  let capacity_Ah := if use_80_percent then capacity_Ah * (4/5) else capacity_Ah
  (capacity_Ah / max avg_current_A (1/1000000000)) * 60

/-- Embeds `series_flight_time_vs_capacity`: one flight time per capacity. -/
def series_flight_time_vs_capacity (capacities : List ℚ) (current_A : ℚ)
    (use_80_percent : Bool) : List ℚ :=
  capacities.map (fun c => calculate_flight_time c current_A use_80_percent)

/-- Embeds `series_flight_time_vs_current`: one flight time per current. -/
def series_flight_time_vs_current (currents : List ℚ) (capacity_mAh : ℚ)
    (use_80_percent : Bool) : List ℚ :=
  currents.map (fun i => calculate_flight_time capacity_mAh i use_80_percent)

/-- Error raised by the flight-time UI handler when the average current
is not positive (`_on_calculate` in src/tools/flight_time_ui.py). -/
inductive FlightTimeError where
  | divisionUndefined
deriving Repr, DecidableEq

/-- Embeds the calculation path of `FlightTimeEstimator._on_calculate`
after numeric parsing: reject `cur <= 0`, otherwise return
`calculate_flight_time cap cur use80`. -/
def flightTimeMinutes (capacity_mAh avg_current_A : ℚ) (use_80_percent : Bool) :
    Except FlightTimeError ℚ :=
  if avg_current_A ≤ 0 then .error .divisionUndefined
  else .ok (calculate_flight_time capacity_mAh avg_current_A use_80_percent)

/-! ## calculate_power_system_ui.py : wingspan voltage bands -/

/-- Embeds `battery_voltage_from_wingspan_cm` from
src/tools/calculate_power_system_ui.py. -/
def battery_voltage_from_wingspan_cm (cm : ℚ) : ℚ :=
  if cm < 100 then 111/10
  else if cm < 140 then 74/5
  else if cm < 175 then 111/5
  else if cm < 215 then 148/5
  else if cm < 245 then 37
  else 222/5

/-! ## calculate_params_ui.py : motor / ESC parameter table -/

/-- Python `round`: nearest integer, ties to even (banker's rounding). -/
def pythonRound (q : ℚ) : ℤ :=
  let f := Int.floor q
  let frac := q - f
  if frac < 1/2 then f
  else if 1/2 < frac then f + 1
  else if f % 2 = 0 then f else f + 1

/-- Python `dict.get(kv, 0.0)` over an association list. -/
def dictGet (m : List (ℤ × ℚ)) (k : ℤ) : ℚ :=
  match m with
  | [] => 0
  | p :: rest => if p.1 = k then p.2 else dictGet rest k

/-- One output row of `calculate_motor_esc_params`. -/
structure MotorRow where
  kv : ℤ
  voltage : ℚ
  rpm : ℚ
  torque : String
  power : ℚ
  esc : ℤ
deriving Repr, DecidableEq

/-- Body of the nested loop in `calculate_motor_esc_params`: one result
row; torque is classified by the source's `kv >= 2000` /
`1000 <= kv < 2000` / else chain. -/
def motorRow (current_draws : List (ℤ × ℚ)) (kv : ℤ) (voltage : ℚ) : MotorRow :=
  let rpm : ℚ := Int.cast kv * voltage
  let torque := if 2000 ≤ kv then "Low"
                else if 1000 ≤ kv ∧ kv < 2000 then "Medium"
                else "High"
  let current := dictGet current_draws kv
  let power := voltage * current
  let esc := pythonRound (current * (6/5))
  ⟨kv, voltage, rpm, torque, power, esc⟩

/-- Embeds `calculate_motor_esc_params` from
src/tools/calculate_params_ui.py: nested loops over KV ratings and
voltages, appending one row per combination. -/
def calculate_motor_esc_params (kv_ratings : List ℤ) (battery_voltages : List ℚ)
    (current_draws : List (ℤ × ℚ)) : List MotorRow :=
  kv_ratings.foldl (fun acc kv =>
    battery_voltages.foldl (fun acc2 voltage =>
      acc2 ++ [motorRow current_draws kv voltage]) acc) []

/-- Row built the way the spec describes it: torque category `High` when
`kv < 1000`, `Medium` when `1000 ≤ kv < 2000`, `Low` otherwise. -/
def specRow (current_draws : List (ℤ × ℚ)) (kv : ℤ) (voltage : ℚ) : MotorRow :=
  let current := dictGet current_draws kv
  { kv := kv
    voltage := voltage
    rpm := Int.cast kv * voltage
    torque := if kv < 1000 then "High"
              else if kv < 2000 then "Medium"
              else "Low"
    power := voltage * current
    esc := pythonRound (current * (6/5)) }

/-! ## flight_measure_ui.py : battery discharge simulator -/

/-- One row of the simulator's sample log (`self.records` in
src/tools/flight_measure_ui.py): time, current, consumed, remaining,
estimated flight minutes. -/
structure SampleRecord where
  time_s : ℚ
  current_A : ℚ
  consumed_mAh : ℚ
  remaining_mAh : ℚ
  eta_min : ℚ
deriving Repr, DecidableEq

/-- The per-run configuration fields `BatterySimWindow._on_start` stores
on `self` after validation. -/
structure SimConfig where
  sampling_interval_s : ℚ
  sim_duration_s : ℚ
  i_min : ℚ
  i_max : ℚ
deriving Repr, DecidableEq

/-- The mutable simulator state of `BatterySimWindow`: the timer being
active is `running`; `start_time` / `last_time` are wall-clock readings. -/
structure SimState where
  running : Bool
  start_time : ℚ
  last_time : ℚ
  total_elapsed_s : ℚ
  consumed_mAh : ℚ
  effective_capacity_mAh : ℚ
  records : List SampleRecord
deriving Repr, DecidableEq

/-- The state set up by `BatterySimWindow.__init__`. -/
def initState : SimState :=
  { running := false, start_time := 0, last_time := 0, total_elapsed_s := 0
    consumed_mAh := 0, effective_capacity_mAh := 0, records := [] }

/-- Validation failure of `_on_start` (any `ValueError` path: negative
input or `i_max < i_min`), shown in a message box; the spec calls this
`InvalidConfig`. -/
inductive SimError where
  | invalidConfig
deriving Repr, DecidableEq

/-- Terminal signals shown in the status bar by `_on_tick`. -/
inductive Signal where
  | durationReached
  | depleted
deriving Repr, DecidableEq

/-- Embeds `BatterySimWindow._on_pause`: no-op unless running, otherwise
stop the timer. -/
def onPause (s : SimState) : SimState :=
  if s.running then { s with running := false } else s

/-- Embeds `BatterySimWindow._on_reset`: stop the timer and discard all
accumulated run state (`effective_capacity_mAh` is only written by
`_on_start`, so reset leaves it alone). -/
def onReset (s : SimState) : SimState :=
  { s with running := false, start_time := 0, last_time := 0
           total_elapsed_s := 0, consumed_mAh := 0, records := [] }

/-- Embeds `BatterySimWindow._on_start` at the post-parse level: the
`_f` parser rejects a negative field, then `i_max < i_min` is rejected;
on success the effective capacity is recomputed, a first start zeroes
the accumulators and clears the log, a resume only refreshes
`last_time`, and ticking begins (`running := true`). `now` is the
`time.time()` reading. -/
def onStart (cap samp dur i_min i_max : ℚ) (use80 : Bool) (now : ℚ) (s : SimState) :
    Except SimError (SimConfig × SimState) :=
  if cap < 0 ∨ samp < 0 ∨ dur < 0 ∨ i_min < 0 ∨ i_max < 0 then .error .invalidConfig
  else if i_max < i_min then .error .invalidConfig
  else
    let s1 := { s with effective_capacity_mAh := cap * (if use80 then 4/5 else 1) }
    let s2 :=
      if s1.running then s1
      else if s1.start_time = 0 then
        { s1 with start_time := now, last_time := now
                  total_elapsed_s := 0, consumed_mAh := 0, records := [] }
      else { s1 with last_time := now }
    .ok (⟨samp, dur, i_min, i_max⟩, { s2 with running := true })

/-- The state the window keeps after `_on_start`: on a validation error
the handler returns without touching the simulator state. -/
def startOrKeep (cap samp dur i_min i_max : ℚ) (use80 : Bool) (now : ℚ)
    (s : SimState) : SimState :=
  match onStart cap samp dur i_min i_max use80 now s with
  | .ok p => p.2
  | .error _ => s

/-- Embeds `BatterySimWindow._on_tick`. `now` is the `time.time()`
reading and `current_A` the value `random.uniform(i_min, i_max)`
returned. Order follows the source: update `total_elapsed_s`, stop on
duration, skip if the sampling interval has not elapsed, otherwise
integrate the current draw, append a sample, and stop on depletion. -/
def onTick (cfg : SimConfig) (now current_A : ℚ) (s : SimState) :
    SimState × Option Signal :=
  let elapsed_s := now - s.last_time
  let s1 := { s with total_elapsed_s := now - s.start_time }
  if cfg.sim_duration_s ≤ s1.total_elapsed_s then
    (onPause s1, some .durationReached)
  else if elapsed_s + 1/1000000000 < cfg.sampling_interval_s then
    (s1, none)
  else
    let elapsed_h := elapsed_s / 3600
    let used_mAh := current_A * elapsed_h * 1000
    let consumed := s1.consumed_mAh + used_mAh
    let remaining := max (s1.effective_capacity_mAh - consumed) 0
    let eta := if 1/10 < current_A then remaining / 1000 / current_A * 60 else 9999
    let s2 := { s1 with consumed_mAh := consumed
                        records := s1.records ++
                          [⟨s1.total_elapsed_s, current_A, consumed, remaining, eta⟩] }
    if remaining ≤ 0 then (onPause s2, some .depleted)
    else ({ s2 with last_time := now }, none)

/-- A timer tick: the Qt timer only fires while started, so a tick is a
no-op on a paused state. -/
def tickStep (cfg : SimConfig) (s : SimState) (inp : ℚ × ℚ) : SimState :=
  if s.running then (onTick cfg inp.1 inp.2 s).1 else s

/-- A whole run: the sequence of `(now, current)` pairs delivered by the
timer and the random source. -/
def runTicks (cfg : SimConfig) (s : SimState) (inputs : List (ℚ × ℚ)) : SimState :=
  inputs.foldl (tickStep cfg) s

/-- Wall-clock readings of successive ticks never decrease, starting
from the given reading. -/
def ChronTimes : ℚ → List (ℚ × ℚ) → Prop
  | _, [] => True
  | t, p :: rest => t ≤ p.1 ∧ ChronTimes p.1 rest

/-- Run invariant: consumed charge and effective capacity are
non-negative and every logged sample's remaining charge is the clamped
difference, within `[0, effective_capacity_mAh]`. -/
def Inv (s : SimState) : Prop :=
  0 ≤ s.consumed_mAh ∧ 0 ≤ s.effective_capacity_mAh ∧
  ∀ r ∈ s.records,
    r.remaining_mAh = max (s.effective_capacity_mAh - r.consumed_mAh) 0 ∧
    0 ≤ r.remaining_mAh ∧ r.remaining_mAh ≤ s.effective_capacity_mAh

end FlightLab

namespace FlightLab

/-! ## Helper lemmas -/

/-- The flight-time formula is non-negative for non-negative capacity:
the divisor is clamped below by the positive constant 1e-9. -/
theorem calculate_flight_time_nonneg (cap cur : ℚ) (u : Bool) (h : 0 ≤ cap) :
    0 ≤ calculate_flight_time cap cur u := by
  have hm : (0 : ℚ) < max cur (1/1000000000) :=
    lt_of_lt_of_le (by norm_num) (le_max_right _ _)
  unfold calculate_flight_time
  have hc : (0 : ℚ) ≤ cap / 1000 := by positivity
  cases u <;> simp only [if_true, if_false, Bool.false_eq_true, ite_true, ite_false] <;>
    positivity

/-- Folding a one-element append over a list accumulates its map. -/
theorem foldl_append_singleton (f : α → β) (l : List α) (acc : List β) :
    l.foldl (fun a x => a ++ [f x]) acc = acc ++ l.map f := by
  induction l generalizing acc with
  | nil => simp
  | cons x xs ih => simp [ih]

/-- Folding a list-valued append over a list accumulates its flat map. -/
theorem foldl_append_lists (g : α → List β) (l : List α) (acc : List β) :
    l.foldl (fun a x => a ++ g x) acc = acc ++ l.flatMap g := by
  induction l generalizing acc with
  | nil => simp
  | cons x xs ih => simp [ih]

/-- The source's torque chain (`kv >= 2000` first) agrees with the
spec's (`kv < 1000` first), so the loop body equals the spec's row. -/
theorem motorRow_eq_specRow (m : List (ℤ × ℚ)) (kv : ℤ) (v : ℚ) :
    motorRow m kv v = specRow m kv v := by
  have ht : (if 2000 ≤ kv then "Low"
             else if 1000 ≤ kv ∧ kv < 2000 then "Medium" else "High") =
      (if kv < 1000 then "High" else if kv < 2000 then "Medium" else "Low") := by
    split_ifs <;> first | rfl | omega
  simp only [motorRow, specRow]
  rw [ht]

/-- A tick never changes the effective capacity. -/
theorem onTick_effective (cfg : SimConfig) (now c : ℚ) (s : SimState) :
    ((onTick cfg now c s).1).effective_capacity_mAh = s.effective_capacity_mAh := by
  simp only [onTick, onPause]
  split_ifs <;> rfl

/-- After a tick at wall-clock `now`, the stored `last_time` is at most
`now` (it is either unchanged or set to `now`). -/
theorem onTick_last_time_le (cfg : SimConfig) (now c : ℚ) (s : SimState)
    (ht : s.last_time ≤ now) : ((onTick cfg now c s).1).last_time ≤ now := by
  simp only [onTick, onPause]
  split_ifs <;> first | exact ht | exact le_refl _

/-- One tick preserves the run invariant when the drawn current is
non-negative and the clock did not run backwards. -/
theorem inv_onTick (cfg : SimConfig) (now c : ℚ) (s : SimState)
    (hc : 0 ≤ c) (ht : s.last_time ≤ now) (hinv : Inv s) :
    Inv ((onTick cfg now c s).1) := by
  obtain ⟨h0, heff, hrec⟩ := hinv
  have hused : 0 ≤ c * ((now - s.last_time) / 3600) * 1000 := by
    have hnn : (0 : ℚ) ≤ now - s.last_time := by linarith
    positivity
  have hcons : 0 ≤ s.consumed_mAh + c * ((now - s.last_time) / 3600) * 1000 :=
    add_nonneg h0 hused
  simp only [Inv, onTick, onPause]
  split_ifs <;>
    first
      | exact ⟨h0, heff, hrec⟩
      | (refine ⟨hcons, heff, ?_⟩
         intro r hr
         rcases List.mem_append.mp hr with hm | hm
         · exact hrec r hm
         · rw [List.mem_singleton] at hm
           subst hm
           exact ⟨rfl, le_max_right _ _, max_le (by linarith) heff⟩)

/-- The run invariant is preserved by a timer step. -/
theorem inv_tickStep (cfg : SimConfig) (s : SimState) (p : ℚ × ℚ)
    (hc : 0 ≤ p.2) (ht : s.last_time ≤ p.1) (hinv : Inv s) :
    Inv (tickStep cfg s p) := by
  unfold tickStep
  split_ifs with h
  · exact inv_onTick cfg p.1 p.2 s hc ht hinv
  · exact hinv

/-- A timer step keeps `last_time` at most the tick's wall-clock time. -/
theorem tickStep_last_time_le (cfg : SimConfig) (s : SimState) (p : ℚ × ℚ)
    (ht : s.last_time ≤ p.1) : (tickStep cfg s p).last_time ≤ p.1 := by
  unfold tickStep
  split_ifs with h
  · exact onTick_last_time_le cfg p.1 p.2 s ht
  · exact ht

/-- Chronological tick sequences stay chronological from any earlier
reference time. -/
theorem chronTimes_mono (t s : ℚ) (l : List (ℚ × ℚ)) (h : s ≤ t)
    (hc : ChronTimes t l) : ChronTimes s l := by
  cases l with
  | nil => trivial
  | cons p rest =>
    obtain ⟨h1, h2⟩ := hc
    exact ⟨le_trans h h1, h2⟩

/-- The run invariant holds at the end of any chronological run of
non-negative current draws. -/
theorem inv_runTicks (cfg : SimConfig) (inputs : List (ℚ × ℚ)) :
    ∀ s : SimState, (∀ p ∈ inputs, 0 ≤ p.2) → ChronTimes s.last_time inputs →
      Inv s → Inv (runTicks cfg s inputs) := by
  induction inputs with
  | nil => intro s _ _ hinv; simpa [runTicks] using hinv
  | cons p rest ih =>
    intro s hc hch hinv
    obtain ⟨h1, h2⟩ := hch
    have hs1 : Inv (tickStep cfg s p) :=
      inv_tickStep cfg s p (hc p (List.mem_cons_self p rest)) h1 hinv
    have hl1 : (tickStep cfg s p).last_time ≤ p.1 :=
      tickStep_last_time_le cfg s p h1
    have hch1 : ChronTimes (tickStep cfg s p).last_time rest :=
      chronTimes_mono p.1 _ rest hl1 h2
    have hmain := ih (tickStep cfg s p)
      (fun q hq => hc q (List.mem_cons_of_mem p hq)) hch1 hs1
    simpa [runTicks] using hmain

/-! ## C1 -/

/-- C1: for every capacity and every average current ≤ 0 (in particular
zero), the flight-time computation fails with `DivisionUndefined` and
produces no numeric result. -/
theorem C1_flight_time_division_undefined (cap cur : ℚ) (use80 : Bool)
    (h : cur ≤ 0) :
    flightTimeMinutes cap cur use80 = .error .divisionUndefined := by
  simp [flightTimeMinutes, h]

/-- C1 witness at capacity 1500 mAh, current 0 A. -/
theorem C1_flight_time_division_undefined_witness :
    (0 : ℚ) ≤ 0 ∧
    flightTimeMinutes 1500 0 true = .error .divisionUndefined :=
  ⟨le_refl 0, C1_flight_time_division_undefined 1500 0 true (le_refl 0)⟩

/-! ## C10 -/

/-- C10: `calculate_flight_time` is total on non-negative inputs (its
divisor is clamped below by 1e-9, so the result is a well-defined
non-negative rational even at zero current), and both sweep variants
return exactly one value per input element, in input order, each given
by `calculate_flight_time`. -/
theorem C10_flight_time_total (cap cur : ℚ) (u : Bool) (caps curs : List ℚ)
    (h1 : 0 ≤ cap) (h2 : 0 ≤ cur) (hcaps : ∀ c ∈ caps, 0 ≤ c) :
    0 ≤ calculate_flight_time cap cur u ∧
    (series_flight_time_vs_capacity caps cur u).length = caps.length ∧
    (series_flight_time_vs_current curs cap u).length = curs.length ∧
    (∀ i, i < caps.length →
      (series_flight_time_vs_capacity caps cur u).getD i 0 =
        calculate_flight_time (caps.getD i 0) cur u) ∧
    (∀ i, i < curs.length →
      (series_flight_time_vs_current curs cap u).getD i 0 =
        calculate_flight_time cap (curs.getD i 0) u) ∧
    (∀ y ∈ series_flight_time_vs_capacity caps cur u, 0 ≤ y) := by
  refine ⟨calculate_flight_time_nonneg cap cur u h1, ?_, ?_, ?_, ?_, ?_⟩
  · simp [series_flight_time_vs_capacity]
  · simp [series_flight_time_vs_current]
  · intro i hi
    simp [series_flight_time_vs_capacity, List.getD_eq_getElem?_getD,
      List.getElem?_map, List.getElem?_eq_getElem hi]
  · intro i hi
    simp [series_flight_time_vs_current, List.getD_eq_getElem?_getD,
      List.getElem?_map, List.getElem?_eq_getElem hi]
  · intro y hy
    simp only [series_flight_time_vs_capacity, List.mem_map] at hy
    obtain ⟨cc, hcc, rfl⟩ := hy
    exact calculate_flight_time_nonneg cc cur u (hcaps cc hcc)

/-- C10 witness: a 1500 mAh pack at 18 A with a small capacity sweep. -/
theorem C10_flight_time_total_witness :
    (0 : ℚ) ≤ 1500 ∧ (0 : ℚ) ≤ 18 ∧ (∀ c ∈ [(500 : ℚ), 1000], 0 ≤ c) ∧
    (0 ≤ calculate_flight_time 1500 18 true ∧
     (series_flight_time_vs_capacity [500, 1000] 18 true).length =
       ([(500 : ℚ), 1000]).length ∧
     (series_flight_time_vs_current [5, 9] 1500 true).length =
       ([(5 : ℚ), 9]).length ∧
     (∀ i, i < ([(500 : ℚ), 1000]).length →
       (series_flight_time_vs_capacity [500, 1000] 18 true).getD i 0 =
         calculate_flight_time (([(500 : ℚ), 1000]).getD i 0) 18 true) ∧
     (∀ i, i < ([(5 : ℚ), 9]).length →
       (series_flight_time_vs_current [5, 9] 1500 true).getD i 0 =
         calculate_flight_time 1500 (([(5 : ℚ), 9]).getD i 0) true) ∧
     (∀ y ∈ series_flight_time_vs_capacity [500, 1000] 18 true, 0 ≤ y)) :=
  ⟨by norm_num, by norm_num, by norm_num,
   C10_flight_time_total 1500 18 true [500, 1000] [5, 9]
     (by norm_num) (by norm_num) (by norm_num)⟩

/-! ## C8 -/

/-- C8: the motor/ESC table is exactly one row per element of the
cartesian product of KV ratings and voltages, each row as the spec
describes it (rpm = kv × voltage, torque banded at 1000/2000, power =
voltage × looked-up current defaulting to 0, ESC = round(current ×
1.2)); in particular the single-row scenario of the spec. -/
theorem C8_motor_esc_table (kvs : List ℤ) (vs : List ℚ) (m : List (ℤ × ℚ)) :
    calculate_motor_esc_params kvs vs m =
      kvs.flatMap (fun kv => vs.map (specRow m kv)) ∧
    calculate_motor_esc_params [1200] [74/5] [(1200, 40)] =
      [{ kv := 1200, voltage := 74/5, rpm := 17760, torque := "Medium",
         power := 592, esc := 48 }] := by
  constructor
  · unfold calculate_motor_esc_params
    have hrows : motorRow m = specRow m :=
      funext fun kv => funext fun v => motorRow_eq_specRow m kv v
    calc
      kvs.foldl (fun acc kv =>
          vs.foldl (fun acc2 voltage => acc2 ++ [motorRow m kv voltage]) acc) [] =
          kvs.foldl (fun acc kv => acc ++ vs.map (motorRow m kv)) [] := by
        congr 1
        funext acc kv
        exact foldl_append_singleton (motorRow m kv) vs acc
      _ = [] ++ kvs.flatMap (fun kv => vs.map (motorRow m kv)) :=
        foldl_append_lists (fun kv => vs.map (motorRow m kv)) kvs []
      _ = kvs.flatMap (fun kv => vs.map (specRow m kv)) := by rw [hrows]; simp
  · norm_num [calculate_motor_esc_params, motorRow, dictGet, pythonRound,
      MotorRow.mk.injEq]

/-! ## C9 -/

/-- C9: for every non-negative wingspan, the recommended battery voltage
is determined exactly by the wingspan bands of the spec. -/
theorem C9_voltage_bands (cm : ℚ) (h : 0 ≤ cm) :
    (cm < 100 → battery_voltage_from_wingspan_cm cm = 111/10) ∧
    (100 ≤ cm → cm < 140 → battery_voltage_from_wingspan_cm cm = 74/5) ∧
    (140 ≤ cm → cm < 175 → battery_voltage_from_wingspan_cm cm = 111/5) ∧
    (175 ≤ cm → cm < 215 → battery_voltage_from_wingspan_cm cm = 148/5) ∧
    (215 ≤ cm → cm < 245 → battery_voltage_from_wingspan_cm cm = 37) ∧
    (245 ≤ cm → battery_voltage_from_wingspan_cm cm = 222/5) := by
  unfold battery_voltage_from_wingspan_cm
  refine ⟨fun h1 => ?_, fun h1 h2 => ?_, fun h1 h2 => ?_, fun h1 h2 => ?_,
    fun h1 h2 => ?_, fun h1 => ?_⟩ <;>
    repeat rw [if_neg (by linarith)]
  all_goals first
    | rfl
    | (rw [if_pos (by linarith)])

/-! ## C2 -/

/-- C2: on a running simulation, a tick whose updated elapsed time
reaches or exceeds the configured duration appends no sample, leaves
the consumed charge unchanged, pauses the simulator and signals
`DurationReached`; the duration check precedes the current draw, so the
straddling tick is dropped entirely. -/
theorem C2_duration_boundary (cfg : SimConfig) (now c : ℚ) (s : SimState)
    (hrun : s.running = true)
    (hdur : cfg.sim_duration_s ≤ now - s.start_time) :
    ((onTick cfg now c s).1).records = s.records ∧
    ((onTick cfg now c s).1).consumed_mAh = s.consumed_mAh ∧
    ((onTick cfg now c s).1).running = false ∧
    ((onTick cfg now c s).1).total_elapsed_s = now - s.start_time ∧
    (onTick cfg now c s).2 = some .durationReached := by
  simp [onTick, onPause, hrun, hdur]

/-- C2 witness: duration 120 s reached at wall-clock 120 s. -/
theorem C2_duration_boundary_witness :
    ((⟨true, 0, 119, 119, 50, 1200, []⟩ : SimState)).running = true ∧
    (120 : ℚ) ≤ 120 - 0 ∧
    (((onTick ⟨1/10, 120, 2, 10⟩ 120 5 ⟨true, 0, 119, 119, 50, 1200, []⟩).1).records = [] ∧
     ((onTick ⟨1/10, 120, 2, 10⟩ 120 5 ⟨true, 0, 119, 119, 50, 1200, []⟩).1).consumed_mAh = 50 ∧
     ((onTick ⟨1/10, 120, 2, 10⟩ 120 5 ⟨true, 0, 119, 119, 50, 1200, []⟩).1).running = false ∧
     ((onTick ⟨1/10, 120, 2, 10⟩ 120 5 ⟨true, 0, 119, 119, 50, 1200, []⟩).1).total_elapsed_s = 120 - 0 ∧
     (onTick ⟨1/10, 120, 2, 10⟩ 120 5 ⟨true, 0, 119, 119, 50, 1200, []⟩).2 =
       some .durationReached) :=
  ⟨rfl, by norm_num,
   C2_duration_boundary ⟨1/10, 120, 2, 10⟩ 120 5 ⟨true, 0, 119, 119, 50, 1200, []⟩
     rfl (by norm_num)⟩

/-! ## C3 -/

/-- C3: starting from any valid configuration, every sample logged by
any chronological run whose drawn currents lie in the configured range
has `remaining_mAh = max(effective_capacity_mAh − consumed_mAh, 0)`,
never negative and never above the effective capacity. -/
theorem C3_remaining_bounds (cap samp dur i_min i_max : ℚ) (use80 : Bool)
    (now0 : ℚ) (cfg : SimConfig) (s0 : SimState) (inputs : List (ℚ × ℚ))
    (hstart : onStart cap samp dur i_min i_max use80 now0 initState = .ok (cfg, s0))
    (hcur : ∀ p ∈ inputs, cfg.i_min ≤ p.2 ∧ p.2 ≤ cfg.i_max)
    (ht : ChronTimes s0.last_time inputs) :
    ∀ r ∈ (runTicks cfg s0 inputs).records,
      r.remaining_mAh =
        max ((runTicks cfg s0 inputs).effective_capacity_mAh - r.consumed_mAh) 0 ∧
      0 ≤ r.remaining_mAh ∧
      r.remaining_mAh ≤ (runTicks cfg s0 inputs).effective_capacity_mAh := by
  unfold onStart at hstart
  by_cases hneg : cap < 0 ∨ samp < 0 ∨ dur < 0 ∨ i_min < 0 ∨ i_max < 0
  · rw [if_pos hneg] at hstart
    exact absurd hstart (by simp)
  · rw [if_neg hneg] at hstart
    by_cases hlt : i_max < i_min
    · rw [if_pos hlt] at hstart
      exact absurd hstart (by simp)
    · rw [if_neg hlt] at hstart
      push_neg at hneg
      obtain ⟨hcap, _, _, himin, _⟩ := hneg
      simp only [initState, Bool.false_eq_true, if_false, if_pos rfl,
        Except.ok.injEq, Prod.mk.injEq] at hstart
      obtain ⟨hcfg, hs0⟩ := hstart
      subst hcfg
      subst hs0
      have heff : 0 ≤ cap * (if use80 then (4 : ℚ)/5 else 1) := by
        cases use80 <;> simp <;> linarith
      have hinv0 : Inv ⟨true, now0, now0, 0, 0,
          cap * (if use80 then (4 : ℚ)/5 else 1), []⟩ :=
        ⟨le_refl 0, heff, by intro r hr; simp at hr⟩
      have hc0 : ∀ p ∈ inputs, 0 ≤ p.2 := by
        intro p hp
        have := (hcur p hp).1
        simp at this
        linarith
      have hfinal := inv_runTicks ⟨samp, dur, i_min, i_max⟩ inputs _ hc0 ht hinv0
      exact hfinal.2.2

/-- C3 witness: a fresh 1500 mAh pack with the 80% rule and one
in-range tick. -/
theorem C3_remaining_bounds_witness :
    onStart 1500 (1/10) 120 2 10 true 1 initState =
      .ok (⟨1/10, 120, 2, 10⟩, ⟨true, 1, 1, 0, 0, 1200, []⟩) ∧
    (∀ p ∈ [((2 : ℚ), (5 : ℚ))],
      (⟨1/10, 120, 2, 10⟩ : SimConfig).i_min ≤ p.2 ∧
      p.2 ≤ (⟨1/10, 120, 2, 10⟩ : SimConfig).i_max) ∧
    ChronTimes ((⟨true, 1, 1, 0, 0, 1200, []⟩ : SimState)).last_time [(2, 5)] ∧
    ∀ r ∈ (runTicks ⟨1/10, 120, 2, 10⟩ ⟨true, 1, 1, 0, 0, 1200, []⟩ [(2, 5)]).records,
      r.remaining_mAh =
        max ((runTicks ⟨1/10, 120, 2, 10⟩ ⟨true, 1, 1, 0, 0, 1200, []⟩
          [(2, 5)]).effective_capacity_mAh - r.consumed_mAh) 0 ∧
      0 ≤ r.remaining_mAh ∧
      r.remaining_mAh ≤ (runTicks ⟨1/10, 120, 2, 10⟩ ⟨true, 1, 1, 0, 0, 1200, []⟩
        [(2, 5)]).effective_capacity_mAh :=
  ⟨by norm_num [onStart, initState], by norm_num, by norm_num [ChronTimes],
   C3_remaining_bounds 1500 (1/10) 120 2 10 true 1 ⟨1/10, 120, 2, 10⟩
     ⟨true, 1, 1, 0, 0, 1200, []⟩ [(2, 5)]
     (by norm_num [onStart, initState]) (by norm_num) (by norm_num [ChronTimes])⟩

/-! ## C4 -/

/-- C4: with a non-negative current draw and a wall clock that does not
run backwards, the consumed charge after any tick of a run is at least
the consumed charge before it, so `consumed_mAh` never decreases across
successive ticks. -/
theorem C4_consumed_monotone (cfg : SimConfig) (s : SimState) (now c : ℚ)
    (hc : 0 ≤ c) (ht : s.last_time ≤ now) :
    s.consumed_mAh ≤ (tickStep cfg s (now, c)).consumed_mAh := by
  have hused : 0 ≤ c * ((now - s.last_time) / 3600) * 1000 := by
    have hnn : (0 : ℚ) ≤ now - s.last_time := by linarith
    positivity
  unfold tickStep
  by_cases hr : s.running = true
  · rw [if_pos hr]
    show s.consumed_mAh ≤ ((onTick cfg now c s).1).consumed_mAh
    simp only [onTick, onPause]
    split_ifs <;> simp <;> linarith
  · rw [if_neg hr]

/-- C4 witness: one sampled tick at 6 A adds charge. -/
theorem C4_consumed_monotone_witness :
    (0 : ℚ) ≤ 6 ∧ (10 : ℚ) ≤ 11 ∧
    ((⟨true, 0, 10, 10, 50, 1200, []⟩ : SimState)).consumed_mAh ≤
      (tickStep ⟨1/10, 120, 2, 10⟩ ⟨true, 0, 10, 10, 50, 1200, []⟩ (11, 6)).consumed_mAh :=
  ⟨by norm_num, by norm_num,
   C4_consumed_monotone ⟨1/10, 120, 2, 10⟩ ⟨true, 0, 10, 10, 50, 1200, []⟩ 11 6
     (by norm_num) (by norm_num)⟩

/-! ## C5 -/

/-- C5: a start whose configuration has `current_max_A < current_min_A`
fails with `InvalidConfig`, the simulation is not started, and the
simulator state the window keeps is exactly the one it had before the
call. -/
theorem C5_start_invalid_config (cap samp dur i_min i_max : ℚ) (use80 : Bool)
    (now : ℚ) (s : SimState) (h : i_max < i_min) :
    onStart cap samp dur i_min i_max use80 now s = .error .invalidConfig ∧
    startOrKeep cap samp dur i_min i_max use80 now s = s := by
  have h1 : onStart cap samp dur i_min i_max use80 now s = .error .invalidConfig := by
    unfold onStart
    by_cases hneg : cap < 0 ∨ samp < 0 ∨ dur < 0 ∨ i_min < 0 ∨ i_max < 0
    · rw [if_pos hneg]
    · rw [if_neg hneg, if_pos h]
  exact ⟨h1, by simp [startOrKeep, h1]⟩

/-- C5 witness: max current 1 A below min current 2 A is rejected and
the pre-start state is kept. -/
theorem C5_start_invalid_config_witness :
    (1 : ℚ) < 2 ∧
    (onStart 1500 (1/10) 120 2 1 true 7 initState = .error .invalidConfig ∧
     startOrKeep 1500 (1/10) 120 2 1 true 7 initState = initState) :=
  ⟨by norm_num, C5_start_invalid_config 1500 (1/10) 120 2 1 true 7 initState (by norm_num)⟩

/-! ## C6 -/

/-- C6: reset is idempotent — a second reset leaves the state identical
to the first — and the state after reset is the pre-start condition:
not running, zero elapsed time, zero consumed charge, empty sample log. -/
theorem C6_reset_idempotent (s : SimState) :
    onReset (onReset s) = onReset s ∧
    (onReset s).running = false ∧
    (onReset s).total_elapsed_s = 0 ∧
    (onReset s).consumed_mAh = 0 ∧
    (onReset s).records = [] := by
  simp [onReset]

/-! ## C7 -/

/-- C7: every sample-producing tick logs a record whose estimated
flight time is `(remaining_mAh / 1000 / current_A) × 60` when the drawn
current exceeds 0.1 A and the sentinel 9999 otherwise. -/
theorem C7_eta_sentinel (cfg : SimConfig) (now c : ℚ) (s : SimState)
    (hrun : s.running = true)
    (hdur : now - s.start_time < cfg.sim_duration_s)
    (hsamp : cfg.sampling_interval_s ≤ now - s.last_time + 1/1000000000) :
    ∃ r : SampleRecord,
      ((onTick cfg now c s).1).records = s.records ++ [r] ∧
      r.current_A = c ∧
      r.eta_min = (if 1/10 < c then r.remaining_mAh / 1000 / c * 60 else 9999) := by
  simp only [onTick, onPause, hrun, if_true]
  rw [if_neg (by simpa using not_le.mpr hdur), if_neg (by simpa using not_lt.mpr hsamp)]
  split_ifs <;> exact ⟨_, rfl, rfl, by simp [*]⟩

/-- C7 witness: a tick drawing 0.05 A (≤ 0.1 A) with plenty of capacity
left still produces the sentinel ETA. -/
theorem C7_eta_sentinel_witness :
    ((⟨true, 0, 0, 0, 0, 1200, []⟩ : SimState)).running = true ∧
    (2 : ℚ) - 0 < 120 ∧ (1/10 : ℚ) ≤ 2 - 0 + 1/1000000000 ∧
    (∃ r : SampleRecord,
      ((onTick ⟨1/10, 120, 0, 1⟩ 2 (1/20) ⟨true, 0, 0, 0, 0, 1200, []⟩).1).records =
        [] ++ [r] ∧
      r.current_A = 1/20 ∧
      r.eta_min = (if (1/10 : ℚ) < 1/20 then r.remaining_mAh / 1000 / (1/20) * 60
                   else 9999)) :=
  ⟨rfl, by norm_num, by norm_num,
   C7_eta_sentinel ⟨1/10, 120, 0, 1⟩ 2 (1/20) ⟨true, 0, 0, 0, 0, 1200, []⟩
     rfl (by norm_num) (by norm_num)⟩

/-- C9 witness: wingspan 120 cm recommends 14.8 V. -/
theorem C9_voltage_bands_witness :
    (0 : ℚ) ≤ 120 ∧ (100 : ℚ) ≤ 120 ∧ (120 : ℚ) < 140 ∧
    battery_voltage_from_wingspan_cm 120 = 74/5 :=
  ⟨by norm_num, by norm_num, by norm_num,
   (C9_voltage_bands 120 (by norm_num)).2.1 (by norm_num) (by norm_num)⟩

end FlightLab
